import Mathlib

/-!
Shallow embedding of the probability engine of the
`Calculadora-Modelos-Discretos-Continuos` repository
(`src/probability_engine.py` and `src/utils/calculos.py`).

Python integers are modelled by `ℕ` (the engine validates all counting
parameters to be non-negative before any arithmetic), Python `float`
arithmetic on exact combinatorial quantities is modelled by `ℚ`
(the idealised real-valued semantics of the formulas; `math.sqrt` is
modelled by `Real.sqrt` on the cast), and raised exceptions are modelled
by `Except`.  Python dictionaries `{x: P(X=x)}` (insertion order = ascending
`x` at every construction site) are modelled by association lists
`List (ℕ × ℚ)`.
-/

/-- The two exception kinds of `probability_engine.py`:
`ParametrosInvalidosError` (a subclass of `ErrorCalculo`) and a plain
`ErrorCalculo` wrapper for unexpected arithmetic failures. -/
inductive EngineError where
  | parametrosInvalidos (msg : String) : EngineError
  | errorCalculo (msg : String) : EngineError
deriving DecidableEq, Repr

/-- The raw Python exceptions that `utils/calculos.py` can let escape (the
module has no try/except): `ZeroDivisionError` from a division by zero and
`ValueError` from `math.sqrt` of a negative number. -/
inductive CalculosError where
  | zeroDivision : CalculosError
  | mathDomain : CalculosError
deriving DecidableEq, Repr

namespace ProbabilityEngine

/-- `ProbabilityEngine.UMBRAL_HIPERGEOMETRICA = 0.20`. -/
def UMBRAL_HIPERGEOMETRICA : ℚ := 20 / 100

/-- `ProbabilityEngine._combinatoria(n, k)`: `0` when `k < 0` or `k > n`
(the `k < 0` branch is vacuous for `ℕ` arguments; every engine call site
runs after validation of non-negativity), `1` when `k = 0` or `k = n`,
otherwise `math.comb(n, k)`. -/
def combinatoria (n k : ℕ) : ℕ :=
  if k > n then 0
  else if k = 0 ∨ k = n then 1
  else n.choose k

/-- `ProbabilityEngine.seleccionar_modelo(n, N)`: raises
`ParametrosInvalidosError` when `N ≤ 0`, `n ≤ 0` or `n > N`; otherwise
returns `"Hipergeométrica"` when `n / N ≥ 0.20` and `"Binomial"` otherwise. -/
def seleccionar_modelo (n N : ℕ) : Except EngineError String :=
  if N ≤ 0 then
    .error (.parametrosInvalidos "El tamaño de población (N) debe ser mayor a 0.")
  else if n ≤ 0 then
    .error (.parametrosInvalidos "El tamaño de muestra (n) debe ser mayor a 0.")
  else if n > N then
    .error (.parametrosInvalidos "El tamaño de muestra no puede ser mayor que la población.")
  else if (n : ℚ) / (N : ℚ) ≥ UMBRAL_HIPERGEOMETRICA then
    .ok "Hipergeométrica"
  else
    .ok "Binomial"

/-- `ProbabilityEngine._validar_parametros_basicos(N, K, n, x)`; the
`K < 0` and `x < 0` branches are vacuous over `ℕ`. -/
def validar_parametros_basicos (N K n x : ℕ) : Except EngineError Unit :=
  if N ≤ 0 then .error (.parametrosInvalidos "N debe ser mayor a 0.")
  else if K > N then .error (.parametrosInvalidos "K no puede ser mayor que N.")
  else if n ≤ 0 then .error (.parametrosInvalidos "n debe ser mayor a 0.")
  else if n > N then .error (.parametrosInvalidos "n no puede ser mayor que N.")
  else if x > K then .error (.parametrosInvalidos "x no puede ser mayor que K.")
  else if x > n then .error (.parametrosInvalidos "x no puede ser mayor que n.")
  else .ok ()

/-- `ProbabilityEngine._probabilidad_hipergeometrica(N, K, n, x)` =
`C(K,x) * C(N-K, n-x) / C(N,n)`, `0.0` when the denominator is `0`.
Only called after `validar_parametros_basicos`, so `K ≤ N` and `x ≤ n`
and the `ℕ` subtractions agree with Python's. -/
def probabilidad_hipergeometrica (N K n x : ℕ) : ℚ :=
  let numerador := combinatoria K x * combinatoria (N - K) (n - x)
  let denominador := combinatoria N n
  if denominador = 0 then 0
  else (numerador : ℚ) / (denominador : ℚ)

/-- `ProbabilityEngine._probabilidad_binomial(N, K, n, x)` with
`p = K/N`, `q = 1-p`: `C(n,x) * p^x * q^(n-x)`. -/
def probabilidad_binomial (N K n x : ℕ) : ℚ :=
  let p : ℚ := (K : ℚ) / (N : ℚ)
  let q : ℚ := 1 - p
  (combinatoria n x : ℚ) * p ^ x * q ^ (n - x)

/-- `ProbabilityEngine.calcular_probabilidad(N, K, n, x, modelo)`:
validates, then dispatches on the model string. -/
def calcular_probabilidad (N K n x : ℕ) (modelo : String) :
    Except EngineError ℚ := do
  validar_parametros_basicos N K n x
  if modelo = "Hipergeométrica" then
    pure (probabilidad_hipergeometrica N K n x)
  else if modelo = "Binomial" then
    pure (probabilidad_binomial N K n x)
  else
    .error (.parametrosInvalidos "Modelo no reconocido.")

/-- A Python `for` loop that builds a list and propagates the first raised
exception (used to model the dictionary-building loops of the engine). -/
def mapExcept {α β : Type} (f : α → Except EngineError β) :
    List α → Except EngineError (List β)
  | [] => .ok []
  | a :: l => do
    let b ← f a
    let r ← mapExcept f l
    pure (b :: r)

/-- `ProbabilityEngine.calcular_probabilidades_rango_x(N, K, n, x_max, modelo)`:
validates `(N, K, n, 0)`, sets `limite = min(x_max, n, K)` for the
hypergeometric model and `min(x_max, n)` otherwise, and returns the
dictionary `{x: P(X=x)}` for `x` in `0..limite`. -/
def calcular_probabilidades_rango_x (N K n x_max : ℕ) (modelo : String) :
    Except EngineError (List (ℕ × ℚ)) := do
  validar_parametros_basicos N K n 0
  let limite := if modelo = "Hipergeométrica" then min x_max (min n K) else min x_max n
  mapExcept (fun x => do
    let p ← calcular_probabilidad N K n x modelo
    pure (x, p)) (List.range (limite + 1))

/-- `ProbabilityEngine.calcular_todas_probabilidades(N, K, n, modelo)`:
validates `(N, K, n, 0)`, sets `max_x = min(n, K)` for the hypergeometric
model and `n` otherwise, fills `{x: P(X=x)}` for `x` in `0..max_x` and pads
`x` in `max_x+1..n` with `0.0`. -/
def calcular_todas_probabilidades (N K n : ℕ) (modelo : String) :
    Except EngineError (List (ℕ × ℚ)) := do
  validar_parametros_basicos N K n 0
  let max_x := if modelo = "Hipergeométrica" then min n K else n
  let t ← mapExcept (fun x => do
    let p ← calcular_probabilidad N K n x modelo
    pure (x, p)) (List.range (max_x + 1))
  pure (t ++ (List.range' (max_x + 1) (n - max_x)).map (fun x => (x, (0 : ℚ))))

/-- Python's `dict.get(x, 0.0)` on the association lists built by the
engine (this is how `calcular_resumen_completo` reads a point probability
out of a batch result). -/
def dictGet (t : List (ℕ × ℚ)) (x : ℕ) : ℚ :=
  ((t.find? (fun e => e.1 = x)).map Prod.snd).getD 0

/-- The accumulation loop of `calcular_mediana`: walk the keys in
ascending order, add `probs[x]` to the running total, and return the first
`x` at which the total reaches `0.5`; `none` when the loop falls through. -/
def medianaLoop (lookup : ℕ → ℚ) : List ℕ → ℚ → Option ℕ
  | [], _ => none
  | x :: rest, acc =>
    let acc' := acc + lookup x
    if (1 : ℚ) / 2 ≤ acc' then some x else medianaLoop lookup rest acc'

/-- `ProbabilityEngine.calcular_mediana(probs)`: raises
`ParametrosInvalidosError` on an empty dictionary; otherwise walks
`sorted(probs.keys())` accumulating probability and returns (as a float)
the first key whose cumulative probability reaches `0.5`, falling back on
the last sorted key. -/
def calcular_mediana (probs : List (ℕ × ℚ)) : Except EngineError ℚ :=
  if probs.isEmpty then
    .error (.parametrosInvalidos "El diccionario de probabilidades no puede estar vacío.")
  else
    let valores_ordenados := (probs.map Prod.fst).insertionSort (· ≤ ·)
    match medianaLoop (dictGet probs) valores_ordenados 0 with
    | some x => .ok (x : ℚ)
    | none => .ok ((valores_ordenados.getLastD 0 : ℕ) : ℚ)

/-- `ProbabilityEngine.calcular_curtosis(N, K, n)`: validates
(`N > 3`, `K > 0`, `n > 0`, `K ≤ N`, `n ≤ N`), returns
`(0.0, "Mesocúrtica")` on every degenerate guard (`N-n ≤ 0`, `N-K ≤ 0`,
zero variance, zero denominator), otherwise evaluates the closed-form
excess-kurtosis expression and classifies it. -/
def calcular_curtosis (N K n : ℕ) : Except EngineError (ℚ × String) :=
  if N ≤ 3 then .error (.parametrosInvalidos "N debe ser mayor a 3 para calcular curtosis.")
  else if K ≤ 0 then .error (.parametrosInvalidos "K debe ser mayor a 0.")
  else if n ≤ 0 then .error (.parametrosInvalidos "n debe ser mayor a 0.")
  else if K > N then .error (.parametrosInvalidos "K no puede ser mayor que N.")
  else if n > N then .error (.parametrosInvalidos "n no puede ser mayor que N.")
  else
    let p : ℚ := (K : ℚ) / (N : ℚ)
    let q : ℚ := 1 - p
    if (N : ℤ) - (n : ℤ) ≤ 0 ∨ (N : ℤ) - (K : ℤ) ≤ 0 then .ok (0, "Mesocúrtica")
    else
      let varianza : ℚ := (n : ℚ) * p * q * ((N : ℚ) - (n : ℚ)) / ((N : ℚ) - 1)
      if varianza = 0 then .ok (0, "Mesocúrtica")
      else
        let numerador : ℚ :=
          ((N : ℚ) - 1) * ((N : ℚ) * ((N : ℚ) + 1) - 6 * (N : ℚ) * ((N : ℚ) - (n : ℚ)) * p * q +
            6 * (n : ℚ) * ((N : ℚ) - (n : ℚ)) * ((N : ℚ) - 2) * ((N : ℚ) - 3) * p * p * q * q)
        let denominador : ℚ :=
          (n : ℚ) * ((N : ℚ) - (n : ℚ)) * ((N : ℚ) - 2) * ((N : ℚ) - 3) * p * q * varianza
        if denominador = 0 then .ok (0, "Mesocúrtica")
        else
          let curtosis := numerador / denominador - 3
          if curtosis > 1 / 10 then .ok (curtosis, "Leptocúrtica")
          else if curtosis < -(1 / 10) then .ok (curtosis, "Platicúrtica")
          else .ok (curtosis, "Mesocúrtica")

end ProbabilityEngine

namespace Calculos

/-- `utils/calculos.factorial(n)`: `1` when `n ≤ 1`, else `math.factorial(n)`.
Agrees with `Nat.factorial` on `ℕ`. -/
def factorial (n : ℕ) : ℕ :=
  if n ≤ 1 then 1 else n.factorial

/-- `utils/calculos.combinatoria(n, k)`: `0` when `k > n` or `k < 0`
(vacuous over `ℕ`), `1` when `k = 0` or `k = n`, else
`factorial(n) // (factorial(k) * factorial(n-k))`. -/
def combinatoria (n k : ℕ) : ℕ :=
  if k > n then 0
  else if k = 0 ∨ k = n then 1
  else factorial n / (factorial k * factorial (n - k))

/-- `utils/calculos.binomial_pmf(k, n, p)` = `C(n,k) * p^k * (1-p)^(n-k)`. -/
def binomial_pmf (k n : ℕ) (p : ℚ) : ℚ :=
  (combinatoria n k : ℚ) * p ^ k * (1 - p) ^ (n - k)

/-- `utils/calculos.es_poblacion_infinita(n, N)`: `True` when `N` is `None`
or `n ≤ 0.05 * N`. -/
def es_poblacion_infinita (n : ℕ) (N : Option ℕ) : Bool :=
  match N with
  | none => true
  | some N' => decide ((n : ℚ) ≤ (5 / 100) * (N' : ℚ))

/-- `utils/calculos.calcular_desviacion_estandar(n, p, N)`:
`sqrt(n*p*(1-p))`, multiplied by `sqrt((N-n)/(N-1))` when `N` is given and
the population is not treated as infinite.  `calculos.py` has no
try/except, so the raw Python exceptions escape, in evaluation order:
`fpc = math.sqrt((N - n) / (N - 1))` raises `ZeroDivisionError` when
`N = 1` and `ValueError` when the ratio is negative (`n > N ≥ 2`), and
`math.sqrt(varianza)` raises `ValueError` when `varianza < 0`. -/
noncomputable def calcular_desviacion_estandar (n : ℕ) (p : ℚ) (N : Option ℕ) :
    Except CalculosError ℝ :=
  let varianza : ℚ := (n : ℚ) * p * (1 - p)
  match N with
  | none =>
    if varianza < 0 then .error .mathDomain
    else .ok (Real.sqrt (varianza : ℝ))
  | some N' =>
    if es_poblacion_infinita n (some N') then
      if varianza < 0 then .error .mathDomain
      else .ok (Real.sqrt (varianza : ℝ))
    else if N' = 1 then .error .zeroDivision
    else if ((N' : ℚ) - (n : ℚ)) / ((N' : ℚ) - 1) < 0 then .error .mathDomain
    else if varianza < 0 then .error .mathDomain
    else .ok (Real.sqrt (varianza : ℝ) *
      Real.sqrt ((((N' : ℚ) - (n : ℚ)) / ((N' : ℚ) - 1) : ℚ) : ℝ))

/-- `utils/calculos.hipergeometrica_pmf(k, n, N, K)`: `0.0` outside the
support (`k < 0`, `k > n`, `k > K`, or `n-k > N-K`, the integer
comparisons taken over `ℤ`), `0.0` when `C(N,n) = 0`, otherwise
`C(K,k) * C(N-K, n-k) / C(N,n)`. -/
def hipergeometrica_pmf (k n N K : ℕ) : ℚ :=
  if k > n ∨ k > K ∨ ((n : ℤ) - (k : ℤ) > (N : ℤ) - (K : ℤ)) then 0
  else
    let numerador := combinatoria K k * combinatoria (N - K) (n - k)
    let denominador := combinatoria N n
    if denominador = 0 then 0
    else (numerador : ℚ) / (denominador : ℚ)

end Calculos

/-- The exact hypergeometric point mass `C(K,x)·C(N-K,n-x) / C(N,n)` over `ℚ`. -/
def hyppmf (N K n x : ℕ) : ℚ :=
  ((K.choose x * (N - K).choose (n - x) : ℕ) : ℚ) / ((N.choose n : ℕ) : ℚ)

/-- The full mass table `{x: g(x)}` for `x` in `0..n`, as every
table-building loop of the engine lays it out. -/
def tablaCompleta (n : ℕ) (g : ℕ → ℚ) : List (ℕ × ℚ) :=
  (List.range (n + 1)).map (fun x => (x, g x))

/-- Cumulative probability of a mass table at `x`: the sum of the values
of all entries whose key is `≤ x`. -/
def cumulativeTo (probs : List (ℕ × ℚ)) (x : ℕ) : ℚ :=
  ((probs.filter (fun e => e.1 ≤ x)).map Prod.snd).sum

/-- Running cumulative sum of a mass function over `0..x`. -/
def cumsum (g : ℕ → ℚ) (x : ℕ) : ℚ := ∑ j in Finset.range (x + 1), g j

/-- Numerator of the hypergeometric CDF: `∑_{j≤x} C(K,j)·C(N-K,n-j)`. -/
def hyperNum (N K n x : ℕ) : ℕ :=
  ∑ j in Finset.range (x + 1), K.choose j * (N - K).choose (n - j)

/-- The binomial CDF `P(X ≤ x)` as a real function of `p`, used to prove
monotonicity of the rational CDF. -/
def binRealCdf (n x : ℕ) (p : ℝ) : ℝ :=
  ∑ k in Finset.range (x + 1), (n.choose k : ℝ) * p ^ k * (1 - p) ^ (n - k)

namespace ProbabilityEngine

theorem engine_combinatoria_eq_choose (n k : ℕ) : combinatoria n k = n.choose k := by
  unfold combinatoria
  split
  · rw [Nat.choose_eq_zero_of_lt (by omega)]
  · rename_i hle
    split
    · rename_i h
      rcases h with h | h
      · simp [h]
      · simp [h]
    · rfl

end ProbabilityEngine

namespace Calculos

theorem factorial_eq (n : ℕ) : factorial n = n.factorial := by
  unfold factorial
  split
  · interval_cases n <;> rfl
  · rfl

theorem calculos_combinatoria_eq_choose (n k : ℕ) :
    combinatoria n k = n.choose k := by
  unfold combinatoria
  split
  · rw [Nat.choose_eq_zero_of_lt (by omega)]
  · rename_i hle
    split
    · rename_i h
      rcases h with h | h
      · simp [h]
      · simp [h]
    · rw [factorial_eq, factorial_eq, factorial_eq,
        Nat.choose_eq_factorial_div_factorial (by omega)]

end Calculos

namespace ProbabilityEngine

theorem validar_ok (N K n x : ℕ) (hN : 0 < N) (hKN : K ≤ N) (hn : 0 < n)
    (hnN : n ≤ N) (hxK : x ≤ K) (hxn : x ≤ n) :
    validar_parametros_basicos N K n x = .ok () := by
  unfold validar_parametros_basicos
  rw [if_neg (by omega), if_neg (by omega), if_neg (by omega), if_neg (by omega),
    if_neg (by omega), if_neg (by omega)]

theorem probabilidad_hipergeometrica_eq (N K n x : ℕ) (hnN : n ≤ N) :
    probabilidad_hipergeometrica N K n x = hyppmf N K n x := by
  unfold probabilidad_hipergeometrica hyppmf
  rw [engine_combinatoria_eq_choose, engine_combinatoria_eq_choose,
    engine_combinatoria_eq_choose]
  rw [if_neg (Nat.pos_iff_ne_zero.mp (Nat.choose_pos hnN))]

/-- After successful validation, the engine's hypergeometric entry point
returns exactly the closed-form mass. -/
theorem calcular_probabilidad_hiper_eq (N K n x : ℕ) (hN : 0 < N) (hKN : K ≤ N)
    (hn : 0 < n) (hnN : n ≤ N) (hxK : x ≤ K) (hxn : x ≤ n) :
    calcular_probabilidad N K n x "Hipergeométrica" = .ok (hyppmf N K n x) := by
  unfold calcular_probabilidad
  rw [validar_ok N K n x hN hKN hn hnN hxK hxn]
  simp [Bind.bind, Except.bind, pure, Except.pure,
    probabilidad_hipergeometrica_eq N K n x hnN]

end ProbabilityEngine

/-- Under the engine's validated preconditions the stand-alone
`utils/calculos.hipergeometrica_pmf` also equals the closed-form mass. -/
theorem hipergeometrica_pmf_eq_hyppmf (N K n x : ℕ) (hKN : K ≤ N) (hnN : n ≤ N)
    (hxK : x ≤ K) (hxn : x ≤ n) :
    Calculos.hipergeometrica_pmf x n N K = hyppmf N K n x := by
  unfold Calculos.hipergeometrica_pmf
  split
  · rename_i hguard
    have h3 : (n : ℤ) - (x : ℤ) > (N : ℤ) - (K : ℤ) := by
      rcases hguard with h | h | h
      · omega
      · omega
      · exact h
    have hz : (N - K).choose (n - x) = 0 := Nat.choose_eq_zero_of_lt (by omega)
    unfold hyppmf
    rw [hz]
    simp
  · unfold hyppmf
    rw [Calculos.calculos_combinatoria_eq_choose, Calculos.calculos_combinatoria_eq_choose,
      Calculos.calculos_combinatoria_eq_choose,
      if_neg (Nat.pos_iff_ne_zero.mp (Nat.choose_pos hnN))]

/-- C1: for every input passing basic validation the hypergeometric point
probability equals `C(K,x)·C(N-K,n-x)/C(N,n)`; the stand-alone pmf returns
`0.0` whenever the denominator combination is `0` or `x` lies outside the
support; and the concrete example `N=25, K=6, n=4, x=2` evaluates to
`0.20276679841897233` within `1e-9`. -/
theorem C1_hypergeometric_point_probability (N K n x : ℕ)
    (hN : 0 < N) (hKN : K ≤ N) (hn : 0 < n) (hnN : n ≤ N) (hxK : x ≤ K) (hxn : x ≤ n) :
    ProbabilityEngine.calcular_probabilidad N K n x "Hipergeométrica" =
      .ok (((K.choose x * (N - K).choose (n - x) : ℕ) : ℚ) / ((N.choose n : ℕ) : ℚ)) ∧
    (∀ k n' N' K' : ℕ,
      (Calculos.combinatoria N' n' = 0 ∨ k > n' ∨ k > K' ∨
        ((n' : ℤ) - (k : ℤ) > (N' : ℤ) - (K' : ℤ))) →
      Calculos.hipergeometrica_pmf k n' N' K' = 0) ∧
    (∃ q : ℚ, ProbabilityEngine.calcular_probabilidad 25 6 4 2 "Hipergeométrica" = .ok q ∧
      |q - 20276679841897233 / 100000000000000000| ≤ 1 / 1000000000) := by
  refine ⟨ProbabilityEngine.calcular_probabilidad_hiper_eq N K n x hN hKN hn hnN hxK hxn,
    fun k n' N' K' h => ?_,
    ⟨hyppmf 25 6 4 2,
      ProbabilityEngine.calcular_probabilidad_hiper_eq 25 6 4 2 (by norm_num) (by norm_num)
        (by norm_num) (by norm_num) (by norm_num) (by norm_num), ?_⟩⟩
  · unfold Calculos.hipergeometrica_pmf
    split
    · rfl
    · rename_i hguard
      rcases h with h | h | h | h
      · rw [if_pos h]
      · exact absurd (Or.inl h) hguard
      · exact absurd (Or.inr (Or.inl h)) hguard
      · exact absurd (Or.inr (Or.inr h)) hguard
  · have hval : hyppmf 25 6 4 2 = 513 / 2530 := by
      unfold hyppmf
      norm_num [Nat.choose]
    rw [hval]
    norm_num [abs_le]

theorem C1_witness :
    0 < 25 ∧ 6 ≤ 25 ∧ 0 < 4 ∧ 4 ≤ 25 ∧ 2 ≤ 6 ∧ 2 ≤ 4 ∧
    (ProbabilityEngine.calcular_probabilidad 25 6 4 2 "Hipergeométrica" =
      .ok (((Nat.choose 6 2 * Nat.choose (25 - 6) (4 - 2) : ℕ) : ℚ) /
        ((Nat.choose 25 4 : ℕ) : ℚ)) ∧
    (∀ k n' N' K' : ℕ,
      (Calculos.combinatoria N' n' = 0 ∨ k > n' ∨ k > K' ∨
        ((n' : ℤ) - (k : ℤ) > (N' : ℤ) - (K' : ℤ))) →
      Calculos.hipergeometrica_pmf k n' N' K' = 0) ∧
    (∃ q : ℚ, ProbabilityEngine.calcular_probabilidad 25 6 4 2 "Hipergeométrica" = .ok q ∧
      |q - 20276679841897233 / 100000000000000000| ≤ 1 / 1000000000)) :=
  ⟨by decide, by decide, by decide, by decide, by decide, by decide,
    C1_hypergeometric_point_probability 25 6 4 2 (by decide) (by decide) (by decide)
      (by decide) (by decide) (by decide)⟩

/-- C9: for every parameter set passing basic validation, the engine's
hypergeometric entry point and the independent
`utils/calculos.hipergeometrica_pmf` return exactly the same value. -/
theorem C9_implementations_agree (N K n x : ℕ) (hN : 0 < N) (hKN : K ≤ N)
    (hn : 0 < n) (hnN : n ≤ N) (hxK : x ≤ K) (hxn : x ≤ n) :
    ProbabilityEngine.calcular_probabilidad N K n x "Hipergeométrica" =
      .ok (Calculos.hipergeometrica_pmf x n N K) := by
  rw [ProbabilityEngine.calcular_probabilidad_hiper_eq N K n x hN hKN hn hnN hxK hxn,
    hipergeometrica_pmf_eq_hyppmf N K n x hKN hnN hxK hxn]

theorem C9_witness :
    0 < 25 ∧ 6 ≤ 25 ∧ 0 < 4 ∧ 4 ≤ 25 ∧ 2 ≤ 6 ∧ 2 ≤ 4 ∧
    ProbabilityEngine.calcular_probabilidad 25 6 4 2 "Hipergeométrica" =
      .ok (Calculos.hipergeometrica_pmf 2 4 25 6) :=
  ⟨by decide, by decide, by decide, by decide, by decide, by decide,
    C9_implementations_agree 25 6 4 2 (by decide) (by decide) (by decide) (by decide)
      (by decide) (by decide)⟩

namespace ProbabilityEngine

theorem mapExcept_ok {α β : Type} (f : α → Except EngineError β) (g : α → β)
    (l : List α) (h : ∀ a ∈ l, f a = .ok (g a)) :
    mapExcept f l = .ok (l.map g) := by
  induction l with
  | nil => rfl
  | cons a l ih =>
    have ha := h a (List.mem_cons_self a l)
    have hrest := ih (fun b hb => h b (List.mem_cons_of_mem a hb))
    simp [mapExcept, Bind.bind, Except.bind, ha, hrest, pure, Except.pure]

/-- Under validated parameters, the range batch calculator succeeds and
returns the table `{x: pmf(x)}` for `x` in `0..min(x_max, n, K)`. -/
theorem rango_hiper_eq (N K n x_max : ℕ) (hN : 0 < N) (hKN : K ≤ N)
    (hn : 0 < n) (hnN : n ≤ N) :
    calcular_probabilidades_rango_x N K n x_max "Hipergeométrica" =
      .ok ((List.range (min x_max (min n K) + 1)).map (fun x => (x, hyppmf N K n x))) := by
  unfold calcular_probabilidades_rango_x
  rw [validar_ok N K n 0 hN hKN hn hnN (Nat.zero_le K) (Nat.zero_le n)]
  have hif : (if ("Hipergeométrica" : String) = "Hipergeométrica" then min x_max (min n K)
      else min x_max n) = min x_max (min n K) := if_pos rfl
  simp only [Bind.bind, Except.bind, ite_true]
  exact mapExcept_ok _ _ _ (fun x hx => by
    have hx' : x < min x_max (min n K) + 1 := List.mem_range.mp hx
    rw [calcular_probabilidad_hiper_eq N K n x hN hKN hn hnN (by omega) (by omega)]
    rfl)

/-- Under validated parameters, the all-`x` batch calculator succeeds and
returns the full mass table with zeros padded up to `n`. -/
theorem todas_hiper_eq (N K n : ℕ) (hN : 0 < N) (hKN : K ≤ N)
    (hn : 0 < n) (hnN : n ≤ N) :
    calcular_todas_probabilidades N K n "Hipergeométrica" =
      .ok (tablaCompleta n (fun x => hyppmf N K n x)) := by
  unfold calcular_todas_probabilidades
  rw [validar_ok N K n 0 hN hKN hn hnN (Nat.zero_le K) (Nat.zero_le n)]
  have hif : (if ("Hipergeométrica" : String) = "Hipergeométrica" then min n K
      else n) = min n K := if_pos rfl
  simp only [Bind.bind, Except.bind, ite_true]
  rw [mapExcept_ok _ (fun x => (x, hyppmf N K n x)) _ (fun x hx => by
    have hx' : x < min n K + 1 := List.mem_range.mp hx
    rw [calcular_probabilidad_hiper_eq N K n x hN hKN hn hnN (by omega) (by omega)]
    rfl)]
  simp only [Except.bind]
  congr 1
  have hpad : (List.range' (min n K + 1) (n - min n K)).map (fun x => (x, (0 : ℚ))) =
      (List.range' (min n K + 1) (n - min n K)).map (fun x => (x, hyppmf N K n x)) := by
    refine List.map_congr_left (fun a ha => ?_)
    have h1 : min n K + 1 ≤ a := (List.mem_range'_1.mp ha).1
    have h1b : a < min n K + 1 + (n - min n K) := (List.mem_range'_1.mp ha).2
    have h2 : K < a := by omega
    have : Nat.choose K a = 0 := Nat.choose_eq_zero_of_lt h2
    unfold hyppmf
    rw [this]
    simp
  rw [hpad, ← List.map_append]
  unfold tablaCompleta
  congr 1
  rw [List.range_eq_range', List.range_eq_range']
  have := List.range'_append 0 (min n K + 1) (n - min n K) 1
  simp only [one_mul, Nat.zero_add] at this
  rw [this]
  congr 1
  omega

theorem dictGet_eq_zero_of_absent (t : List (ℕ × ℚ)) (x : ℕ)
    (h : ∀ e ∈ t, e.1 ≠ x) : dictGet t x = 0 := by
  unfold dictGet
  have : t.find? (fun e => e.1 = x) = none := by
    rw [List.find?_eq_none]
    intro e he
    simp only [decide_eq_true_eq]
    exact h e he
  rw [this]
  rfl

theorem dictGet_map_key (g : ℕ → ℚ) (l : List ℕ) (x : ℕ) (hx : x ∈ l) :
    dictGet (l.map (fun y => (y, g y))) x = g x := by
  induction l with
  | nil => cases hx
  | cons a l ih =>
    by_cases hax : a = x
    · subst hax
      unfold dictGet
      rw [List.map_cons, List.find?_cons_of_pos _ (by simp)]
      rfl
    · unfold dictGet
      rw [List.map_cons, List.find?_cons_of_neg _ (by simp [hax])]
      exact ih (by
        rcases List.mem_cons.mp hx with h | h
        · exact absurd h.symm hax
        · exact h)

theorem dictGet_tabla (n : ℕ) (g : ℕ → ℚ) (x : ℕ) (hx : x ≤ n) :
    dictGet (tablaCompleta n g) x = g x :=
  dictGet_map_key g _ x (List.mem_range.mpr (by omega))

end ProbabilityEngine

/-- C2: for every `0 < n ≤ N`, the model selector returns Hypergeometric
iff `n/N ≥ 0.20`, and the boundary `n/N = 0.20` selects Hypergeometric
(the comparison is inclusive). -/
theorem C2_model_selector_threshold (n N : ℕ) (hn : 0 < n) (hnN : n ≤ N) :
    (ProbabilityEngine.seleccionar_modelo n N = Except.ok "Hipergeométrica" ↔
      (20 / 100 : ℚ) ≤ (n : ℚ) / (N : ℚ)) ∧
    ((n : ℚ) / (N : ℚ) = 20 / 100 →
      ProbabilityEngine.seleccionar_modelo n N = Except.ok "Hipergeométrica") := by
  unfold ProbabilityEngine.seleccionar_modelo ProbabilityEngine.UMBRAL_HIPERGEOMETRICA
  rw [if_neg (by omega), if_neg (by omega), if_neg (by omega)]
  refine ⟨⟨fun h => ?_, fun h => by rw [if_pos h]⟩, fun h => by rw [if_pos (le_of_eq h.symm)]⟩
  by_contra hc
  rw [if_neg hc] at h
  exact absurd h (by simp)

theorem C2_witness :
    0 < 1 ∧ 1 ≤ 5 ∧
    ((ProbabilityEngine.seleccionar_modelo 1 5 = Except.ok "Hipergeométrica" ↔
        (20 / 100 : ℚ) ≤ ((1 : ℕ) : ℚ) / ((5 : ℕ) : ℚ)) ∧
      (((1 : ℕ) : ℚ) / ((5 : ℕ) : ℚ) = 20 / 100 →
        ProbabilityEngine.seleccionar_modelo 1 5 = Except.ok "Hipergeométrica")) :=
  ⟨Nat.one_pos, by norm_num, C2_model_selector_threshold 1 5 Nat.one_pos (by norm_num)⟩

/-- C5: for otherwise-valid kurtosis parameters (`N > 3`, `0 < K ≤ N`,
`0 < n ≤ N`), whenever `N - n ≤ 0` or `N - K ≤ 0` the engine's kurtosis
returns `(0.0, "Mesocúrtica")` and does not raise. -/
theorem C5_kurtosis_degenerate (N K n : ℕ) (h3 : 3 < N) (hK : 0 < K)
    (hn : 0 < n) (hKN : K ≤ N) (hnN : n ≤ N)
    (hdeg : (N : ℤ) - (n : ℤ) ≤ 0 ∨ (N : ℤ) - (K : ℤ) ≤ 0) :
    ProbabilityEngine.calcular_curtosis N K n = .ok (0, "Mesocúrtica") := by
  unfold ProbabilityEngine.calcular_curtosis
  rw [if_neg (by omega), if_neg (by omega), if_neg (by omega), if_neg (by omega),
    if_neg (by omega), if_pos hdeg]

namespace ProbabilityEngine

theorem filter_le_head (a : ℕ) (t : List ℕ) (hat : ∀ b ∈ t, a < b) :
    (a :: t).filter (fun y => y ≤ a) = [a] := by
  rw [List.filter_cons_of_pos (by simp)]
  congr 1
  rw [List.filter_eq_nil_iff]
  intro b hb
  simp only [decide_eq_true_eq]
  have := hat b hb
  omega

theorem filter_le_cons_of_le (a z : ℕ) (t : List ℕ) (haz : a ≤ z) :
    (a :: t).filter (fun y => y ≤ z) = a :: t.filter (fun y => y ≤ z) :=
  List.filter_cons_of_pos (by simp [haz])

theorem medianaLoop_some_spec (lookup : ℕ → ℚ) :
    ∀ (l : List ℕ) (acc : ℚ), l.Pairwise (· < ·) →
    ∀ m, medianaLoop lookup l acc = some m →
      m ∈ l ∧ 1 / 2 ≤ acc + ((l.filter (fun y => y ≤ m)).map lookup).sum ∧
        ∀ y ∈ l, y < m → acc + ((l.filter (fun z => z ≤ y)).map lookup).sum < 1 / 2 := by
  intro l
  induction l with
  | nil => intro acc _ m h; cases h
  | cons a t ih =>
    intro acc hp m h
    obtain ⟨ha, hpt⟩ := List.pairwise_cons.mp hp
    by_cases hif : (1 : ℚ) / 2 ≤ acc + lookup a
    · have hsome : medianaLoop lookup (a :: t) acc = some a := by
        simp only [medianaLoop]
        rw [if_pos hif]
      rw [hsome] at h
      obtain rfl : a = m := Option.some_inj.mp h
      refine ⟨List.mem_cons_self a t, ?_, ?_⟩
      · rw [filter_le_head a t ha]
        simpa using hif
      · intro y hy hym
        rcases List.mem_cons.mp hy with rfl | hyt
        · omega
        · exact absurd (ha y hyt) (by omega)
    · have hrec : medianaLoop lookup (a :: t) acc = medianaLoop lookup t (acc + lookup a) := by
        simp only [medianaLoop]
        rw [if_neg hif]
      rw [hrec] at h
      obtain ⟨hm, hsum, hmin⟩ := ih (acc + lookup a) hpt m h
      refine ⟨List.mem_cons_of_mem a hm, ?_, ?_⟩
      · rw [filter_le_cons_of_le a m t (le_of_lt (ha m hm)), List.map_cons, List.sum_cons]
        linarith
      · intro y hy hym
        rcases List.mem_cons.mp hy with rfl | hyt
        · rw [filter_le_head y t ha]
          simp only [List.map_cons, List.sum_cons, List.map_nil, List.sum_nil]
          linarith [lt_of_not_le hif]
        · rw [filter_le_cons_of_le a y t (le_of_lt (ha y hyt)), List.map_cons, List.sum_cons]
          have := hmin y hyt hym
          linarith

theorem medianaLoop_none_spec (lookup : ℕ → ℚ) :
    ∀ (l : List ℕ) (acc : ℚ), l.Pairwise (· < ·) →
    medianaLoop lookup l acc = none →
    ∀ x ∈ l, acc + ((l.filter (fun y => y ≤ x)).map lookup).sum < 1 / 2 := by
  intro l
  induction l with
  | nil => intro acc _ _ x hx; cases hx
  | cons a t ih =>
    intro acc hp h x hx
    obtain ⟨ha, hpt⟩ := List.pairwise_cons.mp hp
    by_cases hif : (1 : ℚ) / 2 ≤ acc + lookup a
    · have hsome : medianaLoop lookup (a :: t) acc = some a := by
        simp only [medianaLoop]
        rw [if_pos hif]
      rw [hsome] at h
      cases h
    · have hrec : medianaLoop lookup (a :: t) acc = medianaLoop lookup t (acc + lookup a) := by
        simp only [medianaLoop]
        rw [if_neg hif]
      rw [hrec] at h
      rcases List.mem_cons.mp hx with rfl | hxt
      · rw [filter_le_head x t ha]
        simp only [List.map_cons, List.sum_cons, List.map_nil, List.sum_nil]
        linarith [lt_of_not_le hif]
      · rw [filter_le_cons_of_le a x t (le_of_lt (ha x hxt)), List.map_cons, List.sum_cons]
        have := ih (acc + lookup a) hpt h x hxt
        linarith

theorem medianaLoop_eq_none (lookup : ℕ → ℚ) :
    ∀ (l : List ℕ) (acc : ℚ), l.Pairwise (· < ·) →
    (∀ x ∈ l, acc + ((l.filter (fun y => y ≤ x)).map lookup).sum < 1 / 2) →
    medianaLoop lookup l acc = none := by
  intro l
  induction l with
  | nil => intro acc _ _; rfl
  | cons a t ih =>
    intro acc hp hall
    obtain ⟨ha, hpt⟩ := List.pairwise_cons.mp hp
    have hlt : acc + lookup a < 1 / 2 := by
      have := hall a (List.mem_cons_self a t)
      rw [filter_le_head a t ha] at this
      simpa using this
    have hrec : medianaLoop lookup (a :: t) acc = medianaLoop lookup t (acc + lookup a) := by
      simp only [medianaLoop]
      rw [if_neg (not_le.mpr hlt)]
    rw [hrec]
    refine ih (acc + lookup a) hpt (fun x hx => ?_)
    have := hall x (List.mem_cons_of_mem a hx)
    rw [filter_le_cons_of_le a x t (le_of_lt (ha x hx)), List.map_cons, List.sum_cons] at this
    linarith

theorem dictGet_cons_self (a : ℕ) (v : ℚ) (rest : List (ℕ × ℚ)) :
    dictGet ((a, v) :: rest) a = v := by
  unfold dictGet
  rw [List.find?_cons_of_pos _ (by simp)]
  rfl

theorem dictGet_cons_ne (a y : ℕ) (v : ℚ) (rest : List (ℕ × ℚ)) (h : y ≠ a) :
    dictGet ((a, v) :: rest) y = dictGet rest y := by
  unfold dictGet
  rw [List.find?_cons_of_neg _ (by simp [Ne.symm h])]

theorem keysum_eq_cumulativeTo (probs : List (ℕ × ℚ))
    (hnd : (probs.map Prod.fst).Nodup) (x : ℕ) :
    (((probs.map Prod.fst).filter (fun y => y ≤ x)).map (dictGet probs)).sum =
      cumulativeTo probs x := by
  induction probs with
  | nil => rfl
  | cons e rest ih =>
    obtain ⟨a, v⟩ := e
    rw [List.map_cons] at hnd
    have hmemnot : a ∉ rest.map Prod.fst := (List.nodup_cons.mp hnd).1
    have hndr : (rest.map Prod.fst).Nodup := (List.nodup_cons.mp hnd).2
    have htail : ((rest.map Prod.fst).filter (fun y => y ≤ x)).map
        (dictGet ((a, v) :: rest)) =
        ((rest.map Prod.fst).filter (fun y => y ≤ x)).map (dictGet rest) := by
      refine List.map_congr_left (fun y hy => ?_)
      have hyk : y ∈ rest.map Prod.fst := List.mem_of_mem_filter hy
      exact dictGet_cons_ne a y v rest (fun hya => hmemnot (hya ▸ hyk))
    unfold cumulativeTo
    by_cases hax : a ≤ x
    · rw [List.map_cons, List.filter_cons_of_pos (by simp [hax]), List.map_cons,
        List.sum_cons, htail, ih hndr,
        List.filter_cons_of_pos (by simp [hax]), List.map_cons, List.sum_cons,
        dictGet_cons_self]
      rfl
    · rw [List.map_cons, List.filter_cons_of_neg (by simp [hax]), htail, ih hndr,
        List.filter_cons_of_neg (by simp [hax])]
      rfl

theorem psum_sorted_eq_cumulativeTo (probs : List (ℕ × ℚ))
    (hnd : (probs.map Prod.fst).Nodup) (x : ℕ) :
    ((((probs.map Prod.fst).insertionSort (· ≤ ·)).filter (fun y => y ≤ x)).map
      (dictGet probs)).sum = cumulativeTo probs x := by
  have hperm := (List.perm_insertionSort (· ≤ ·) (probs.map Prod.fst)).filter
    (fun y => decide (y ≤ x))
  rw [(hperm.map (dictGet probs)).sum_eq]
  exact keysum_eq_cumulativeTo probs hnd x

theorem getLastD_mem : ∀ (l : List ℕ) (d : ℕ), l ≠ [] → l.getLastD d ∈ l
  | [], _, h => absurd rfl h
  | a :: t, d, _ => by
    rw [List.getLastD_cons]
    by_cases ht : t = []
    · subst ht
      simp
    · exact List.mem_cons_of_mem a (getLastD_mem t a ht)

theorem sorted_le_getLastD : ∀ (l : List ℕ) (d : ℕ), l.Sorted (· ≤ ·) →
    ∀ y ∈ l, y ≤ l.getLastD d
  | [], _, _, y, hy => absurd hy (List.not_mem_nil y)
  | a :: t, d, hs, y, hy => by
    rw [List.getLastD_cons]
    obtain ⟨ha, hst⟩ := List.pairwise_cons.mp hs
    rcases List.mem_cons.mp hy with rfl | hyt
    · by_cases ht : t = []
      · subst ht
        simp
      · exact ha _ (getLastD_mem t y ht)
    · exact sorted_le_getLastD t a hst y hyt

end ProbabilityEngine

/-- The first-crossing behaviour of `calcular_mediana` on an arbitrary
mass table with distinct keys. -/
theorem mediana_first_crossing (probs : List (ℕ × ℚ)) (hne : probs ≠ [])
    (hnd : (probs.map Prod.fst).Nodup)
    (hreach : ∃ e ∈ probs, 1 / 2 ≤ cumulativeTo probs e.1) :
    ∃ m, m ∈ probs.map Prod.fst ∧ 1 / 2 ≤ cumulativeTo probs m ∧
      (∀ y ∈ probs.map Prod.fst, y < m → cumulativeTo probs y < 1 / 2) ∧
      ProbabilityEngine.calcular_mediana probs = .ok ((m : ℕ) : ℚ) := by
  have hperm := List.perm_insertionSort (· ≤ ·) (probs.map Prod.fst)
  have hsorted := List.sorted_insertionSort (· ≤ ·) (probs.map Prod.fst)
  have hnd' : ((probs.map Prod.fst).insertionSort (· ≤ ·)).Nodup := hperm.nodup_iff.mpr hnd
  have hplt : ((probs.map Prod.fst).insertionSort (· ≤ ·)).Pairwise (· < ·) :=
    (hsorted.and hnd').imp (fun h => lt_of_le_of_ne h.1 h.2)
  have hpsum := ProbabilityEngine.psum_sorted_eq_cumulativeTo probs hnd
  cases hloop : ProbabilityEngine.medianaLoop (ProbabilityEngine.dictGet probs)
      ((probs.map Prod.fst).insertionSort (· ≤ ·)) 0 with
  | none =>
    exfalso
    obtain ⟨e, he, hce⟩ := hreach
    have hek : e.1 ∈ (probs.map Prod.fst).insertionSort (· ≤ ·) :=
      hperm.mem_iff.mpr (List.mem_map_of_mem Prod.fst he)
    have := ProbabilityEngine.medianaLoop_none_spec _ _ 0 hplt hloop e.1 hek
    rw [hpsum] at this
    linarith
  | some m =>
    obtain ⟨hm, hs, hmin⟩ := ProbabilityEngine.medianaLoop_some_spec _ _ 0 hplt m hloop
    rw [hpsum] at hs
    refine ⟨m, hperm.mem_iff.mp hm, by linarith, fun y hy hym => ?_, ?_⟩
    · have := hmin y (hperm.mem_iff.mpr hy) hym
      rw [hpsum] at this
      linarith
    · unfold ProbabilityEngine.calcular_mediana
      rw [if_neg (by simp [hne])]
      simp only [hloop]

/-- C10: on every non-empty mass table (distinct keys) whose cumulative
probability never reaches `0.5`, `calcular_mediana` does not raise: it
returns the largest key of the table. -/
theorem C10_median_fallback_largest_key (probs : List (ℕ × ℚ)) (hne : probs ≠ [])
    (hnd : (probs.map Prod.fst).Nodup)
    (hall : ∀ e ∈ probs, cumulativeTo probs e.1 < 1 / 2) :
    ∃ m, m ∈ probs.map Prod.fst ∧ (∀ y ∈ probs.map Prod.fst, y ≤ m) ∧
      ProbabilityEngine.calcular_mediana probs = .ok ((m : ℕ) : ℚ) := by
  have hperm := List.perm_insertionSort (· ≤ ·) (probs.map Prod.fst)
  have hsorted := List.sorted_insertionSort (· ≤ ·) (probs.map Prod.fst)
  have hnd' : ((probs.map Prod.fst).insertionSort (· ≤ ·)).Nodup := hperm.nodup_iff.mpr hnd
  have hplt : ((probs.map Prod.fst).insertionSort (· ≤ ·)).Pairwise (· < ·) :=
    (hsorted.and hnd').imp (fun h => lt_of_le_of_ne h.1 h.2)
  have hpsum := ProbabilityEngine.psum_sorted_eq_cumulativeTo probs hnd
  have hskne : (probs.map Prod.fst).insertionSort (· ≤ ·) ≠ [] := by
    intro hcon
    have h0 : ([] : List ℕ).Perm (probs.map Prod.fst) := hcon ▸ hperm
    exact hne (List.map_eq_nil_iff.mp h0.symm.eq_nil)
  have hloop : ProbabilityEngine.medianaLoop (ProbabilityEngine.dictGet probs)
      ((probs.map Prod.fst).insertionSort (· ≤ ·)) 0 = none := by
    refine ProbabilityEngine.medianaLoop_eq_none _ _ 0 hplt (fun x hx => ?_)
    rw [hpsum]
    obtain ⟨e, he, rfl⟩ := List.mem_map.mp (hperm.mem_iff.mp hx)
    have := hall e he
    linarith
  refine ⟨((probs.map Prod.fst).insertionSort (· ≤ ·)).getLastD 0,
    hperm.mem_iff.mp (ProbabilityEngine.getLastD_mem _ 0 hskne),
    fun y hy => ProbabilityEngine.sorted_le_getLastD _ 0 hsorted y (hperm.mem_iff.mpr hy), ?_⟩
  unfold ProbabilityEngine.calcular_mediana
  rw [if_neg (by simp [hne])]
  simp only [hloop]

/-- C7: on every non-empty mass table (distinct keys) in which some key
reaches cumulative probability `≥ 0.5`, `calcular_mediana` returns the
smallest key (in ascending order) whose cumulative probability is `≥ 0.5`;
on the empty table it raises `ParametrosInvalidosError`. -/
theorem C7_median_first_crossing (probs : List (ℕ × ℚ)) (hne : probs ≠ [])
    (hnd : (probs.map Prod.fst).Nodup)
    (hreach : ∃ e ∈ probs, 1 / 2 ≤ cumulativeTo probs e.1) :
    (∃ m, m ∈ probs.map Prod.fst ∧ 1 / 2 ≤ cumulativeTo probs m ∧
      (∀ y ∈ probs.map Prod.fst, y < m → cumulativeTo probs y < 1 / 2) ∧
      ProbabilityEngine.calcular_mediana probs = .ok ((m : ℕ) : ℚ)) ∧
    ProbabilityEngine.calcular_mediana [] =
      .error (.parametrosInvalidos
        "El diccionario de probabilidades no puede estar vacío.") :=
  ⟨mediana_first_crossing probs hne hnd hreach, rfl⟩

theorem C7_witness :
    ([((0 : ℕ), (3 : ℚ) / 10), (1, 2 / 5), (2, 3 / 10)] ≠ ([] : List (ℕ × ℚ))) ∧
    ([((0 : ℕ), (3 : ℚ) / 10), (1, 2 / 5), (2, 3 / 10)].map Prod.fst).Nodup ∧
    (∃ e ∈ [((0 : ℕ), (3 : ℚ) / 10), (1, 2 / 5), (2, 3 / 10)],
      1 / 2 ≤ cumulativeTo [((0 : ℕ), (3 : ℚ) / 10), (1, 2 / 5), (2, 3 / 10)] e.1) ∧
    ((∃ m, m ∈ [((0 : ℕ), (3 : ℚ) / 10), (1, 2 / 5), (2, 3 / 10)].map Prod.fst ∧
      1 / 2 ≤ cumulativeTo [((0 : ℕ), (3 : ℚ) / 10), (1, 2 / 5), (2, 3 / 10)] m ∧
      (∀ y ∈ [((0 : ℕ), (3 : ℚ) / 10), (1, 2 / 5), (2, 3 / 10)].map Prod.fst, y < m →
        cumulativeTo [((0 : ℕ), (3 : ℚ) / 10), (1, 2 / 5), (2, 3 / 10)] y < 1 / 2) ∧
      ProbabilityEngine.calcular_mediana [((0 : ℕ), (3 : ℚ) / 10), (1, 2 / 5), (2, 3 / 10)] =
        .ok ((m : ℕ) : ℚ)) ∧
    ProbabilityEngine.calcular_mediana [] =
      .error (.parametrosInvalidos
        "El diccionario de probabilidades no puede estar vacío.")) :=
  ⟨by decide, by decide, ⟨(1, 2 / 5), by norm_num, by norm_num [cumulativeTo]⟩,
    C7_median_first_crossing [((0 : ℕ), (3 : ℚ) / 10), (1, 2 / 5), (2, 3 / 10)]
      (by decide) (by decide) ⟨(1, 2 / 5), by norm_num, by norm_num [cumulativeTo]⟩⟩

theorem C10_witness_aux :
    ∀ e ∈ [((0 : ℕ), (1 : ℚ) / 10), (1, 1 / 10)],
      cumulativeTo [((0 : ℕ), (1 : ℚ) / 10), (1, 1 / 10)] e.1 < 1 / 2 := by
  intro e he
  simp only [List.mem_cons, List.not_mem_nil, or_false] at he
  rcases he with rfl | rfl
  · norm_num [cumulativeTo]
  · norm_num [cumulativeTo]

theorem C10_witness :
    ([((0 : ℕ), (1 : ℚ) / 10), (1, 1 / 10)] ≠ ([] : List (ℕ × ℚ))) ∧
    ([((0 : ℕ), (1 : ℚ) / 10), (1, 1 / 10)].map Prod.fst).Nodup ∧
    (∀ e ∈ [((0 : ℕ), (1 : ℚ) / 10), (1, 1 / 10)],
      cumulativeTo [((0 : ℕ), (1 : ℚ) / 10), (1, 1 / 10)] e.1 < 1 / 2) ∧
    (∃ m, m ∈ [((0 : ℕ), (1 : ℚ) / 10), (1, 1 / 10)].map Prod.fst ∧
      (∀ y ∈ [((0 : ℕ), (1 : ℚ) / 10), (1, 1 / 10)].map Prod.fst, y ≤ m) ∧
      ProbabilityEngine.calcular_mediana [((0 : ℕ), (1 : ℚ) / 10), (1, 1 / 10)] =
        .ok ((m : ℕ) : ℚ)) :=
  ⟨by decide, by decide, C10_witness_aux,
    C10_median_fallback_largest_key [((0 : ℕ), (1 : ℚ) / 10), (1, 1 / 10)]
      (by decide) (by decide) C10_witness_aux⟩

/-- Vandermonde: the hypergeometric numerators over `x = 0..n` sum to
`C(N,n)`. -/
theorem hyper_numer_sum (N K n : ℕ) (hKN : K ≤ N) :
    ∑ x in Finset.range (n + 1), K.choose x * (N - K).choose (n - x) = N.choose n := by
  have h := Nat.add_choose_eq K (N - K) n
  rw [Nat.add_sub_cancel' hKN] at h
  rw [h, Finset.Nat.sum_antidiagonal_eq_sum_range_succ_mk]

theorem list_sum_map_range (g : ℕ → ℚ) (m : ℕ) :
    ((List.range m).map g).sum = ∑ x in Finset.range m, g x := by
  induction m with
  | zero => rfl
  | succ m ih =>
    rw [List.range_succ, List.map_append, List.sum_append, Finset.sum_range_succ, ih]
    simp

/-- The exact hypergeometric masses over `x = 0..n` sum to `1`. -/
theorem sum_hyppmf_eq_one (N K n : ℕ) (hKN : K ≤ N) (hnN : n ≤ N) :
    ∑ x in Finset.range (n + 1), hyppmf N K n x = 1 := by
  unfold hyppmf
  rw [← Finset.sum_div]
  rw [← Nat.cast_sum, hyper_numer_sum N K n hKN]
  exact div_self (by exact_mod_cast Nat.pos_iff_ne_zero.mp (Nat.choose_pos hnN))

/-- The binomial masses over `x = 0..n` sum to `1`. -/
theorem sum_binomial_pmf_eq_one (n : ℕ) (p : ℚ) :
    ∑ x in Finset.range (n + 1), Calculos.binomial_pmf x n p = 1 := by
  have h := add_pow p (1 - p) n
  rw [add_sub_cancel, one_pow] at h
  rw [h]
  refine Finset.sum_congr rfl (fun x _ => ?_)
  unfold Calculos.binomial_pmf
  rw [Calculos.calculos_combinatoria_eq_choose]
  ring

/-- C3: the full hypergeometric mass table produced by the engine sums to
`1` within `1e-9`, and the binomial masses over `x = 0..n` sum to `1`
within `1e-9` (both sums are exactly `1` in exact arithmetic). -/
theorem C3_mass_tables_sum_to_one (N K n : ℕ) (p : ℚ)
    (hN : 0 < N) (hKN : K ≤ N) (hn : 0 < n) (hnN : n ≤ N)
    (hp0 : 0 ≤ p) (hp1 : p ≤ 1) :
    (∃ t, ProbabilityEngine.calcular_todas_probabilidades N K n "Hipergeométrica" = .ok t ∧
      |(t.map Prod.snd).sum - 1| ≤ 1 / 1000000000) ∧
    |(∑ x in Finset.range (n + 1), Calculos.binomial_pmf x n p) - 1| ≤ 1 / 1000000000 := by
  constructor
  · refine ⟨_, ProbabilityEngine.todas_hiper_eq N K n hN hKN hn hnN, ?_⟩
    have : (tablaCompleta n (fun x => hyppmf N K n x)).map Prod.snd =
        (List.range (n + 1)).map (fun x => hyppmf N K n x) := by
      unfold tablaCompleta
      rw [List.map_map]
      rfl
    rw [this, list_sum_map_range, sum_hyppmf_eq_one N K n hKN hnN]
    norm_num
  · rw [sum_binomial_pmf_eq_one n p]
    norm_num

theorem C3_witness :
    0 < 25 ∧ 6 ≤ 25 ∧ 0 < 4 ∧ 4 ≤ 25 ∧ (0 : ℚ) ≤ 1 / 2 ∧ (1 / 2 : ℚ) ≤ 1 ∧
    ((∃ t, ProbabilityEngine.calcular_todas_probabilidades 25 6 4 "Hipergeométrica" = .ok t ∧
      |(t.map Prod.snd).sum - 1| ≤ 1 / 1000000000) ∧
    |(∑ x in Finset.range (4 + 1), Calculos.binomial_pmf x 4 (1 / 2)) - 1| ≤ 1 / 1000000000) :=
  ⟨by decide, by decide, by decide, by decide, by norm_num, by norm_num,
    C3_mass_tables_sum_to_one 25 6 4 (1 / 2) (by decide) (by decide) (by decide) (by decide)
      (by norm_num) (by norm_num)⟩

/-- C4: with otherwise-valid parameters, a point probability requested at
`x > K` or `x > n` inside either batch calculator yields `0.0` (via the
`dict.get(x, 0.0)` read used downstream) with no error raised, whereas the
direct single-point call with `x > K` raises `ParametrosInvalidosError`. -/
theorem C4_batch_zero_direct_raises (N K n x x_max : ℕ)
    (hN : 0 < N) (hKN : K ≤ N) (hn : 0 < n) (hnN : n ≤ N) (hx : K < x ∨ n < x) :
    (∃ t, ProbabilityEngine.calcular_probabilidades_rango_x N K n x_max "Hipergeométrica" =
        .ok t ∧ ProbabilityEngine.dictGet t x = 0) ∧
    (∃ t, ProbabilityEngine.calcular_todas_probabilidades N K n "Hipergeométrica" =
        .ok t ∧ ProbabilityEngine.dictGet t x = 0) ∧
    (K < x → ∃ msg, ProbabilityEngine.calcular_probabilidad N K n x "Hipergeométrica" =
        .error (.parametrosInvalidos msg)) := by
  refine ⟨⟨_, ProbabilityEngine.rango_hiper_eq N K n x_max hN hKN hn hnN, ?_⟩,
    ⟨_, ProbabilityEngine.todas_hiper_eq N K n hN hKN hn hnN, ?_⟩, fun hKx => ?_⟩
  · refine ProbabilityEngine.dictGet_eq_zero_of_absent _ x (fun e he => ?_)
    rcases List.mem_map.mp he with ⟨y, hy, rfl⟩
    have : y < min x_max (min n K) + 1 := List.mem_range.mp hy
    simp only []
    omega
  · rcases le_or_lt x n with hxn | hxn
    · rw [ProbabilityEngine.dictGet_tabla n _ x hxn]
      have hKx : K < x := by omega
      unfold hyppmf
      rw [Nat.choose_eq_zero_of_lt hKx]
      simp
    · refine ProbabilityEngine.dictGet_eq_zero_of_absent _ x (fun e he => ?_)
      rcases List.mem_map.mp he with ⟨y, hy, rfl⟩
      have : y < n + 1 := List.mem_range.mp hy
      simp only []
      omega
  · refine ⟨"x no puede ser mayor que K.", ?_⟩
    unfold ProbabilityEngine.calcular_probabilidad ProbabilityEngine.validar_parametros_basicos
    rw [if_neg (by omega), if_neg (by omega), if_neg (by omega), if_neg (by omega),
      if_pos (by omega)]
    rfl

theorem C4_witness :
    0 < 5 ∧ 2 ≤ 5 ∧ 0 < 3 ∧ 3 ≤ 5 ∧ (2 < 4 ∨ 3 < 4) ∧
    ((∃ t, ProbabilityEngine.calcular_probabilidades_rango_x 5 2 3 10 "Hipergeométrica" =
        .ok t ∧ ProbabilityEngine.dictGet t 4 = 0) ∧
    (∃ t, ProbabilityEngine.calcular_todas_probabilidades 5 2 3 "Hipergeométrica" =
        .ok t ∧ ProbabilityEngine.dictGet t 4 = 0) ∧
    (2 < 4 → ∃ msg, ProbabilityEngine.calcular_probabilidad 5 2 3 4 "Hipergeométrica" =
        .error (.parametrosInvalidos msg))) :=
  ⟨by decide, by decide, by decide, by decide, by decide,
    C4_batch_zero_direct_raises 5 2 3 4 10 (by decide) (by decide) (by decide) (by decide)
      (by decide)⟩

/-- C6 counterexample: at `n = 1`, `p = 1/2`, `N = 1` (a Binomial input
with `n > 0`, `0 ≤ p ≤ 1`, `N` given and `n > 0.05·N`) the source raises
`ZeroDivisionError` from `(N-n)/(N-1) = 0/0`, so the standard deviation
does not equal `sqrt(n·p·(1-p))·sqrt((N-n)/(N-1))` — no value is returned
at all. -/
theorem C6_counterexample :
    0 < 1 ∧ (0 : ℚ) ≤ 1 / 2 ∧ (1 / 2 : ℚ) ≤ 1 ∧
    (5 / 100 : ℚ) * ((1 : ℕ) : ℚ) < ((1 : ℕ) : ℚ) ∧
    Calculos.calcular_desviacion_estandar 1 (1 / 2) (some 1) =
      .error CalculosError.zeroDivision ∧
    Calculos.calcular_desviacion_estandar 1 (1 / 2) (some 1) ≠
      .ok (Real.sqrt (((((1 : ℕ) : ℚ)) * (1 / 2) * (1 - 1 / 2) : ℚ) : ℝ) *
        Real.sqrt ((((((1 : ℕ) : ℚ)) - ((1 : ℕ) : ℚ)) / (((1 : ℕ) : ℚ) - 1) : ℚ) : ℝ)) := by
  have hb : Calculos.es_poblacion_infinita 1 (some 1) = false := by
    simp only [Calculos.es_poblacion_infinita, decide_eq_false_iff_not]
    norm_num
  have herr : Calculos.calcular_desviacion_estandar 1 (1 / 2) (some 1) =
      .error CalculosError.zeroDivision := by
    simp [Calculos.calcular_desviacion_estandar, hb]
  refine ⟨Nat.one_pos, by norm_num, by norm_num, by norm_num, herr, ?_⟩
  rw [herr]
  simp

/-- C6 (amended): for every Binomial input (`n > 0`, `0 ≤ p ≤ 1`) the
standard deviation is `sqrt(n·p·(1-p))` when the population is infinite
(`N` absent or `n ≤ 0.05·N`); when `N` is given, `n > 0.05·N` and the
correction ratio is well-defined and non-negative (`N ≠ 1` and
`(N-n)/(N-1) ≥ 0`) it is `sqrt(n·p·(1-p)) · sqrt((N-n)/(N-1))` —
otherwise the call raises instead of returning a value. -/
theorem C6_stddev_finite_population (n : ℕ) (p : ℚ) (hn : 0 < n)
    (hp0 : 0 ≤ p) (hp1 : p ≤ 1) :
    Calculos.calcular_desviacion_estandar n p none =
      .ok (Real.sqrt ((((n : ℚ) * p * (1 - p) : ℚ) : ℝ))) ∧
    (∀ N : ℕ, (n : ℚ) ≤ (5 / 100) * (N : ℚ) →
      Calculos.calcular_desviacion_estandar n p (some N) =
        .ok (Real.sqrt ((((n : ℚ) * p * (1 - p) : ℚ) : ℝ)))) ∧
    (∀ N : ℕ, (5 / 100) * (N : ℚ) < (n : ℚ) → N ≠ 1 →
      0 ≤ ((N : ℚ) - (n : ℚ)) / ((N : ℚ) - 1) →
      Calculos.calcular_desviacion_estandar n p (some N) =
        .ok (Real.sqrt ((((n : ℚ) * p * (1 - p) : ℚ) : ℝ)) *
          Real.sqrt (((((N : ℚ) - (n : ℚ)) / ((N : ℚ) - 1) : ℚ) : ℝ)))) := by
  have hvar : ¬ ((n : ℚ) * p * (1 - p) < 0) :=
    not_lt.mpr (mul_nonneg (mul_nonneg (Nat.cast_nonneg n) hp0) (by linarith))
  refine ⟨?_, fun N h => ?_, fun N h hN1 hr => ?_⟩
  · simp [Calculos.calcular_desviacion_estandar, hvar]
  · have hb : Calculos.es_poblacion_infinita n (some N) = true := by
      simp only [Calculos.es_poblacion_infinita, decide_eq_true_eq]
      exact h
    simp [Calculos.calcular_desviacion_estandar, hb, hvar]
  · have hb : Calculos.es_poblacion_infinita n (some N) = false := by
      simp only [Calculos.es_poblacion_infinita, decide_eq_false_iff_not]
      exact not_le.mpr h
    simp [Calculos.calcular_desviacion_estandar, hb, hvar, hN1, not_lt.mpr hr]

theorem C6_witness :
    0 < 1 ∧ (0 : ℚ) ≤ 1 / 2 ∧ (1 / 2 : ℚ) ≤ 1 ∧
    (Calculos.calcular_desviacion_estandar 1 (1 / 2) none =
      .ok (Real.sqrt (((((1 : ℕ) : ℚ)) * (1 / 2) * (1 - 1 / 2) : ℚ) : ℝ)) ∧
    (∀ N : ℕ, ((1 : ℕ) : ℚ) ≤ (5 / 100) * (N : ℚ) →
      Calculos.calcular_desviacion_estandar 1 (1 / 2) (some N) =
        .ok (Real.sqrt (((((1 : ℕ) : ℚ)) * (1 / 2) * (1 - 1 / 2) : ℚ) : ℝ))) ∧
    (∀ N : ℕ, (5 / 100) * (N : ℚ) < ((1 : ℕ) : ℚ) → N ≠ 1 →
      0 ≤ ((N : ℚ) - ((1 : ℕ) : ℚ)) / ((N : ℚ) - 1) →
      Calculos.calcular_desviacion_estandar 1 (1 / 2) (some N) =
        .ok (Real.sqrt (((((1 : ℕ) : ℚ)) * (1 / 2) * (1 - 1 / 2) : ℚ) : ℝ) *
          Real.sqrt (((((N : ℚ) - ((1 : ℕ) : ℚ)) / ((N : ℚ) - 1) : ℚ) : ℝ))))) :=
  ⟨Nat.one_pos, by norm_num, by norm_num,
    C6_stddev_finite_population 1 (1 / 2) Nat.one_pos (by norm_num) (by norm_num)⟩

theorem C5_witness :
    3 < 5 ∧ 0 < 5 ∧ 0 < 2 ∧ 5 ≤ 5 ∧ 2 ≤ 5 ∧
    ((5 : ℤ) - (2 : ℤ) ≤ 0 ∨ (5 : ℤ) - (5 : ℤ) ≤ 0) ∧
    ProbabilityEngine.calcular_curtosis 5 5 2 = .ok (0, "Mesocúrtica") :=
  ⟨by decide, by decide, by decide, by decide, by decide, by decide,
    C5_kurtosis_degenerate 5 5 2 (by decide) (by decide) (by decide) (by decide)
      (by decide) (by decide)⟩

theorem filter_le_range (m x : ℕ) :
    (List.range m).filter (fun y => y ≤ x) = List.range (min (x + 1) m) := by
  induction m with
  | zero => rfl
  | succ m ih =>
    rw [List.range_succ, List.filter_append, ih]
    by_cases hmx : m ≤ x
    · have h1 : min (x + 1) m = m := by omega
      have h2 : min (x + 1) (m + 1) = m + 1 := by omega
      rw [h1, h2, List.range_succ]
      congr 1
      simp [hmx]
    · have h1 : min (x + 1) m = x + 1 := by omega
      have h2 : min (x + 1) (m + 1) = x + 1 := by omega
      rw [h1, h2]
      have : List.filter (fun y => decide (y ≤ x)) [m] = [] := by
        simp [hmx]
      rw [this, List.append_nil]

theorem filter_fst_map_pair (g : ℕ → ℚ) (x : ℕ) (l : List ℕ) :
    (l.map (fun y => (y, g y))).filter (fun e => e.1 ≤ x) =
      (l.filter (fun y => y ≤ x)).map (fun y => (y, g y)) := by
  induction l with
  | nil => rfl
  | cons a t ih =>
    by_cases hax : a ≤ x
    · rw [List.map_cons, List.filter_cons_of_pos (by simp [hax]),
        List.filter_cons_of_pos (by simp [hax]), List.map_cons, ih]
    · rw [List.map_cons, List.filter_cons_of_neg (by simp [hax]),
        List.filter_cons_of_neg (by simp [hax]), ih]

theorem cumulativeTo_tabla (n : ℕ) (g : ℕ → ℚ) (x : ℕ) (hx : x ≤ n) :
    cumulativeTo (tablaCompleta n g) x = cumsum g x := by
  unfold cumulativeTo tablaCompleta cumsum
  rw [filter_fst_map_pair, filter_le_range, List.map_map]
  have hmin : min (x + 1) (n + 1) = x + 1 := by omega
  rw [hmin]
  have : (Prod.snd ∘ fun y => (y, g y)) = g := rfl
  rw [this, list_sum_map_range]

theorem tabla_keys (n : ℕ) (g : ℕ → ℚ) :
    (tablaCompleta n g).map Prod.fst = List.range (n + 1) := by
  unfold tablaCompleta
  rw [List.map_map]
  have : (Prod.fst ∘ fun y => (y, g y)) = id := rfl
  rw [this, List.map_id]

/-- `calcular_mediana` on a full table `0..n` whose total mass reaches
`0.5` returns the least `x` whose cumulative sum reaches `0.5`. -/
theorem mediana_tabla_spec (n : ℕ) (g : ℕ → ℚ) (hsum : 1 / 2 ≤ cumsum g n) :
    ∃ m, m ≤ n ∧ 1 / 2 ≤ cumsum g m ∧ (∀ y < m, cumsum g y < 1 / 2) ∧
      ProbabilityEngine.calcular_mediana (tablaCompleta n g) = .ok ((m : ℕ) : ℚ) := by
  have hne : tablaCompleta n g ≠ [] := by
    unfold tablaCompleta
    simp [List.range_succ]
  have hnd : ((tablaCompleta n g).map Prod.fst).Nodup := by
    rw [tabla_keys]
    exact List.nodup_range (n + 1)
  have hreach : ∃ e ∈ tablaCompleta n g, 1 / 2 ≤ cumulativeTo (tablaCompleta n g) e.1 := by
    refine ⟨(n, g n), ?_, ?_⟩
    · unfold tablaCompleta
      exact List.mem_map_of_mem _ (List.mem_range.mpr (by omega))
    · rw [cumulativeTo_tabla n g n (le_refl n)]
      exact hsum
  obtain ⟨m, hm, h2, h3, h4⟩ := mediana_first_crossing _ hne hnd hreach
  rw [tabla_keys] at hm h3
  have hmn : m ≤ n := by
    have := List.mem_range.mp hm
    omega
  rw [cumulativeTo_tabla n g m hmn] at h2
  refine ⟨m, hmn, h2, fun y hy => ?_, h4⟩
  have := h3 y (List.mem_range.mpr (by omega)) hy
  rw [cumulativeTo_tabla n g y (by omega)] at this
  exact this

/-- Comparing the medians of two full tables when one CDF dominates the
other pointwise. -/
theorem mediana_mono_of_cdf_le (n : ℕ) (g g' : ℕ → ℚ)
    (hg : 1 / 2 ≤ cumsum g n) (hg' : 1 / 2 ≤ cumsum g' n)
    (hle : ∀ x, x ≤ n → cumsum g' x ≤ cumsum g x) (m m' : ℚ)
    (hm : ProbabilityEngine.calcular_mediana (tablaCompleta n g) = .ok m)
    (hm' : ProbabilityEngine.calcular_mediana (tablaCompleta n g') = .ok m') :
    m ≤ m' := by
  obtain ⟨a, han, ha2, ha3, ha4⟩ := mediana_tabla_spec n g hg
  obtain ⟨b, hbn, hb2, hb3, hb4⟩ := mediana_tabla_spec n g' hg'
  rw [ha4] at hm
  rw [hb4] at hm'
  obtain rfl : ((a : ℕ) : ℚ) = m := Except.ok.inj hm
  obtain rfl : ((b : ℕ) : ℚ) = m' := Except.ok.inj hm'
  have hab : a ≤ b := by
    by_contra hcon
    have hba : b < a := by omega
    have h1 : cumsum g b < 1 / 2 := ha3 b hba
    have h2 : cumsum g' b ≤ cumsum g b := hle b hbn
    linarith
  exact_mod_cast hab

theorem hyperNum_succ_K (N K n : ℕ) (hK : K < N) :
    ∀ x, x < n →
      hyperNum N K n x =
        hyperNum N (K + 1) n x + K.choose x * (N - K - 1).choose (n - x - 1) := by
  intro x
  induction x with
  | zero =>
    intro hx
    unfold hyperNum
    rw [Finset.sum_range_one, Finset.sum_range_one]
    obtain ⟨M, hM⟩ : ∃ M, N - K = M + 1 := ⟨N - K - 1, by omega⟩
    have hM1 : N - (K + 1) = M := by omega
    have hM2 : N - K - 1 = M := by omega
    obtain ⟨n', hn⟩ : ∃ n', n = n' + 1 := ⟨n - 1, by omega⟩
    subst hn
    rw [hM2, hM1, hM]
    simp [Nat.choose_succ_succ]
    omega
  | succ x ih =>
    intro hx
    have hxn : x < n := by omega
    unfold hyperNum at *
    conv_lhs => rw [Finset.sum_range_succ]
    conv_rhs => rw [Finset.sum_range_succ]
    rw [ih hxn]
    obtain ⟨M, hM⟩ : ∃ M, N - K = M + 1 := ⟨N - K - 1, by omega⟩
    have hM1 : N - (K + 1) = M := by omega
    have hM2 : N - K - 1 = M := by omega
    obtain ⟨e, he⟩ : ∃ e, n - x - 1 = e + 1 := ⟨n - x - 2, by omega⟩
    have he1 : n - (x + 1) = e + 1 := by omega
    have he2 : n - (x + 1) - 1 = e := by omega
    rw [hM2, he2, he1, he, hM1, hM]
    rw [Nat.choose_succ_succ M e, Nat.choose_succ_succ K x]
    ring

theorem hyperNum_full (N K n : ℕ) (hKN : K ≤ N) : hyperNum N K n n = N.choose n :=
  hyper_numer_sum N K n hKN

theorem hyperNum_anti (N n : ℕ) :
    ∀ K' K : ℕ, K ≤ K' → K' ≤ N → ∀ x, x ≤ n →
      hyperNum N K' n x ≤ hyperNum N K n x := by
  intro K'
  induction K' with
  | zero =>
    intro K hKK' _ x _
    obtain rfl : K = 0 := by omega
    exact le_refl _
  | succ j ih =>
    intro K hKK' hK'N x hxn
    rcases Nat.lt_or_ge K (j + 1) with hlt | hge
    · have hKj : K ≤ j := by omega
      have hjN : j < N := by omega
      have hstep : hyperNum N (j + 1) n x ≤ hyperNum N j n x := by
        rcases Nat.lt_or_ge x n with hx | hx
        · rw [hyperNum_succ_K N j n hjN x hx]
          omega
        · have hxe : x = n := by omega
          rw [hxe, hyperNum_full N (j + 1) n (by omega), hyperNum_full N j n (by omega)]
      exact le_trans hstep (ih K hKj (by omega) x hxn)
    · obtain rfl : K = j + 1 := by omega
      exact le_refl _

theorem cumsum_hyppmf (N K n x : ℕ) :
    cumsum (fun y => hyppmf N K n y) x = (hyperNum N K n x : ℚ) / (N.choose n : ℚ) := by
  unfold cumsum hyppmf hyperNum
  rw [← Finset.sum_div, ← Nat.cast_sum]

theorem hyper_cdf_anti (N K K' n x : ℕ) (hKK' : K ≤ K') (hK'N : K' ≤ N)
    (hxn : x ≤ n) (hnN : n ≤ N) :
    cumsum (fun y => hyppmf N K' n y) x ≤ cumsum (fun y => hyppmf N K n y) x := by
  rw [cumsum_hyppmf, cumsum_hyppmf]
  have hc : (0 : ℚ) < ((N.choose n : ℕ) : ℚ) := by
    exact_mod_cast Nat.choose_pos hnN
  rw [div_le_div_iff_of_pos_right hc]
  exact_mod_cast hyperNum_anti N n K' K hKK' hK'N x hxn

theorem cumsum_hyppmf_total (N K n : ℕ) (hKN : K ≤ N) (hnN : n ≤ N) :
    cumsum (fun y => hyppmf N K n y) n = 1 :=
  sum_hyppmf_eq_one N K n hKN hnN

theorem succ_mul_choose_left (n x : ℕ) :
    (x + 1) * n.choose (x + 1) = n * (n - 1).choose x := by
  cases n with
  | zero =>
    rw [Nat.choose_eq_zero_of_lt (by omega)]
    ring
  | succ m =>
    have h := Nat.succ_mul_choose_eq m x
    simp only [Nat.succ_eq_add_one] at h
    simp only [Nat.succ_eq_add_one, Nat.add_sub_cancel]
    rw [h, mul_comm]

theorem sub_mul_choose_left (n x : ℕ) :
    (n - (x + 1)) * n.choose (x + 1) = n * (n - 1).choose (x + 1) := by
  cases n with
  | zero => rfl
  | succ m =>
    have h1 := Nat.succ_mul_choose_eq m (x + 1)
    have h2 := Nat.choose_succ_right_eq (m + 1) (x + 1)
    simp only [Nat.succ_eq_add_one] at h1
    simp only [Nat.succ_eq_add_one, Nat.add_sub_cancel]
    rw [h1, h2, mul_comm]

theorem binTerm_hasDerivAt (n k : ℕ) (p : ℝ) :
    HasDerivAt (fun q : ℝ => (n.choose k : ℝ) * q ^ k * (1 - q) ^ (n - k))
      ((n.choose k : ℝ) * ((k : ℝ) * p ^ (k - 1)) * (1 - p) ^ (n - k) -
        (n.choose k : ℝ) * p ^ k * (((n - k : ℕ) : ℝ) * (1 - p) ^ (n - k - 1))) p := by
  have h1 : HasDerivAt (fun q : ℝ => (n.choose k : ℝ) * q ^ k)
      ((n.choose k : ℝ) * ((k : ℝ) * p ^ (k - 1))) p := (hasDerivAt_pow k p).const_mul _
  have hsub : HasDerivAt (fun q : ℝ => 1 - q) (-1 : ℝ) p := by
    simpa using (hasDerivAt_const p (1 : ℝ)).sub (hasDerivAt_id p)
  have h2 : HasDerivAt (fun q : ℝ => (1 - q) ^ (n - k))
      (-(((n - k : ℕ) : ℝ) * (1 - p) ^ (n - k - 1))) p := by
    have h := (hasDerivAt_pow (n - k) (1 - p)).comp p hsub
    convert h using 1
    ring
  have h := h1.mul h2
  convert h using 1
  ring

theorem bin_deriv_sum (n x : ℕ) (p : ℝ) :
    ∑ k in Finset.range (x + 1),
      ((n.choose k : ℝ) * ((k : ℝ) * p ^ (k - 1)) * (1 - p) ^ (n - k) -
        (n.choose k : ℝ) * p ^ k * (((n - k : ℕ) : ℝ) * (1 - p) ^ (n - k - 1)))
      = -((n : ℝ) * ((n - 1).choose x : ℝ) * p ^ x * (1 - p) ^ (n - 1 - x)) := by
  induction x with
  | zero =>
    rw [Finset.sum_range_one]
    have e1 : n - 1 - 0 = n - 0 - 1 := by omega
    rw [e1]
    simp
  | succ x ih =>
    rw [Finset.sum_range_succ, ih]
    have hc1 : ((x + 1 : ℕ) : ℝ) * ((n.choose (x + 1) : ℕ) : ℝ) =
        (n : ℝ) * (((n - 1).choose x : ℕ) : ℝ) := by
      exact_mod_cast congrArg (fun z : ℕ => (z : ℝ)) (succ_mul_choose_left n x)
    have hc2 : (((n - (x + 1) : ℕ)) : ℝ) * ((n.choose (x + 1) : ℕ) : ℝ) =
        (n : ℝ) * (((n - 1).choose (x + 1) : ℕ) : ℝ) := by
      exact_mod_cast congrArg (fun z : ℕ => (z : ℝ)) (sub_mul_choose_left n x)
    have e0 : x + 1 - 1 = x := by omega
    have e1 : n - 1 - x = n - (x + 1) := by omega
    have e2 : n - 1 - (x + 1) = n - (x + 1) - 1 := by omega
    rw [e0, e1, e2]
    push_cast at hc1 hc2 ⊢
    linear_combination (p ^ x * (1 - p) ^ (n - (x + 1))) * hc1 -
      (p ^ (x + 1) * (1 - p) ^ (n - (x + 1) - 1)) * hc2

theorem binRealCdf_hasDeriv (n x : ℕ) (p : ℝ) :
    HasDerivAt (binRealCdf n x)
      (-((n : ℝ) * ((n - 1).choose x : ℝ) * p ^ x * (1 - p) ^ (n - 1 - x))) p := by
  have h := HasDerivAt.sum
    (fun k (_ : k ∈ Finset.range (x + 1)) => binTerm_hasDerivAt n k p)
  rw [bin_deriv_sum n x p] at h
  exact h

theorem binRealCdf_anti (n x : ℕ) : AntitoneOn (binRealCdf n x) (Set.Icc (0 : ℝ) 1) := by
  refine antitoneOn_of_deriv_nonpos (convex_Icc 0 1) ?_ ?_ ?_
  · exact fun p _ => (binRealCdf_hasDeriv n x p).differentiableAt.continuousAt.continuousWithinAt
  · exact fun p _ => (binRealCdf_hasDeriv n x p).differentiableAt.differentiableWithinAt
  · intro p hp
    rw [interior_Icc] at hp
    rw [(binRealCdf_hasDeriv n x p).deriv]
    have h1 : (0 : ℝ) ≤ p ^ x := pow_nonneg (le_of_lt hp.1) x
    have h2 : (0 : ℝ) ≤ (1 - p) ^ (n - 1 - x) := pow_nonneg (by linarith [hp.2]) _
    have h3 : (0 : ℝ) ≤ (n : ℝ) * ((n - 1).choose x : ℝ) := by positivity
    have := mul_nonneg (mul_nonneg h3 h1) h2
    linarith

theorem binQ_cdf_cast (n x : ℕ) (q : ℚ) :
    ((∑ k in Finset.range (x + 1), Calculos.binomial_pmf k n q : ℚ) : ℝ) =
      binRealCdf n x (q : ℝ) := by
  unfold binRealCdf Calculos.binomial_pmf
  push_cast [Calculos.calculos_combinatoria_eq_choose]
  rfl

theorem bin_cdf_anti (n x : ℕ) (p p' : ℚ) (h0 : 0 ≤ p) (hpp' : p ≤ p') (h1 : p' ≤ 1) :
    cumsum (fun k => Calculos.binomial_pmf k n p') x ≤
      cumsum (fun k => Calculos.binomial_pmf k n p) x := by
  have hmem : (p : ℝ) ∈ Set.Icc (0 : ℝ) 1 :=
    ⟨by exact_mod_cast h0, by exact_mod_cast le_trans hpp' h1⟩
  have hmem' : (p' : ℝ) ∈ Set.Icc (0 : ℝ) 1 :=
    ⟨by exact_mod_cast le_trans h0 hpp', by exact_mod_cast h1⟩
  have hR := binRealCdf_anti n x hmem hmem' (by exact_mod_cast hpp')
  have hcast : ((cumsum (fun k => Calculos.binomial_pmf k n p') x : ℚ) : ℝ) ≤
      ((cumsum (fun k => Calculos.binomial_pmf k n p) x : ℚ) : ℝ) := by
    unfold cumsum
    rw [binQ_cdf_cast, binQ_cdf_cast]
    exact hR
  exact_mod_cast hcast

theorem cumsum_binomial_total (n : ℕ) (p : ℚ) :
    cumsum (fun k => Calculos.binomial_pmf k n p) n = 1 :=
  sum_binomial_pmf_eq_one n p

/-- C8: for a fixed model and fixed `n` (and fixed `N` for Hypergeometric),
the median computed by `calcular_mediana` from the full mass table is
monotonically non-decreasing in the success parameter: increasing `K`
(Hypergeometric, `K ≤ N`) or increasing `p` (Binomial, `p ∈ [0,1]`) never
decreases the median. -/
theorem C8_median_monotone :
    (∀ N K K' n : ℕ, ∀ t t' : List (ℕ × ℚ), ∀ m m' : ℚ,
      0 < n → n ≤ N → K ≤ K' → K' ≤ N →
      ProbabilityEngine.calcular_todas_probabilidades N K n "Hipergeométrica" = .ok t →
      ProbabilityEngine.calcular_todas_probabilidades N K' n "Hipergeométrica" = .ok t' →
      ProbabilityEngine.calcular_mediana t = .ok m →
      ProbabilityEngine.calcular_mediana t' = .ok m' → m ≤ m') ∧
    (∀ n : ℕ, ∀ p p' : ℚ, ∀ m m' : ℚ,
      0 < n → 0 ≤ p → p ≤ p' → p' ≤ 1 →
      ProbabilityEngine.calcular_mediana
        (tablaCompleta n (fun x => Calculos.binomial_pmf x n p)) = .ok m →
      ProbabilityEngine.calcular_mediana
        (tablaCompleta n (fun x => Calculos.binomial_pmf x n p')) = .ok m' →
      m ≤ m') := by
  constructor
  · intro N K K' n t t' m m' hn hnN hKK' hK'N ht ht' hm hm'
    have hN : 0 < N := lt_of_lt_of_le hn hnN
    have hKN : K ≤ N := le_trans hKK' hK'N
    rw [ProbabilityEngine.todas_hiper_eq N K n hN hKN hn hnN] at ht
    rw [ProbabilityEngine.todas_hiper_eq N K' n hN hK'N hn hnN] at ht'
    obtain rfl := Except.ok.inj ht
    obtain rfl := Except.ok.inj ht'
    refine mediana_mono_of_cdf_le n (fun x => hyppmf N K n x) (fun x => hyppmf N K' n x)
      ?_ ?_ ?_ m m' hm hm'
    · rw [cumsum_hyppmf_total N K n hKN hnN]
      norm_num
    · rw [cumsum_hyppmf_total N K' n hK'N hnN]
      norm_num
    · exact fun x hx => hyper_cdf_anti N K K' n x hKK' hK'N hx hnN
  · intro n p p' m m' hn h0 hpp' h1 hm hm'
    refine mediana_mono_of_cdf_le n (fun x => Calculos.binomial_pmf x n p)
      (fun x => Calculos.binomial_pmf x n p') ?_ ?_ ?_ m m' hm hm'
    · rw [cumsum_binomial_total n p]
      norm_num
    · rw [cumsum_binomial_total n p']
      norm_num
    · exact fun x hx => bin_cdf_anti n x p p' h0 hpp' h1

theorem C8_witness :
    (0 < 1 ∧ 1 ≤ 2 ∧ 0 ≤ 2 ∧ 2 ≤ 2 ∧
      ProbabilityEngine.calcular_todas_probabilidades 2 0 1 "Hipergeométrica" =
        .ok [((0 : ℕ), (1 : ℚ)), (1, 0)] ∧
      ProbabilityEngine.calcular_todas_probabilidades 2 2 1 "Hipergeométrica" =
        .ok [((0 : ℕ), (0 : ℚ)), (1, 1)] ∧
      ProbabilityEngine.calcular_mediana [((0 : ℕ), (1 : ℚ)), (1, 0)] = .ok (0 : ℚ) ∧
      ProbabilityEngine.calcular_mediana [((0 : ℕ), (0 : ℚ)), (1, 1)] = .ok (1 : ℚ) ∧
      (0 : ℚ) ≤ 1) ∧
    (0 < 1 ∧ (0 : ℚ) ≤ 0 ∧ (0 : ℚ) ≤ 1 ∧ (1 : ℚ) ≤ 1 ∧
      ProbabilityEngine.calcular_mediana
        (tablaCompleta 1 (fun x => Calculos.binomial_pmf x 1 0)) = .ok (0 : ℚ) ∧
      ProbabilityEngine.calcular_mediana
        (tablaCompleta 1 (fun x => Calculos.binomial_pmf x 1 1)) = .ok (1 : ℚ) ∧
      (0 : ℚ) ≤ 1) := by
  have htab1 : tablaCompleta 1 (fun x => hyppmf 2 0 1 x) = [((0 : ℕ), (1 : ℚ)), (1, 0)] := by
    norm_num [tablaCompleta, List.range_succ, List.range_zero, hyppmf, Nat.choose]
  have htab2 : tablaCompleta 1 (fun x => hyppmf 2 2 1 x) = [((0 : ℕ), (0 : ℚ)), (1, 1)] := by
    norm_num [tablaCompleta, List.range_succ, List.range_zero, hyppmf, Nat.choose]
  have ht1 : ProbabilityEngine.calcular_todas_probabilidades 2 0 1 "Hipergeométrica" =
      .ok [((0 : ℕ), (1 : ℚ)), (1, 0)] := by
    rw [ProbabilityEngine.todas_hiper_eq 2 0 1 (by norm_num) (by norm_num) (by norm_num)
      (by norm_num), htab1]
  have ht2 : ProbabilityEngine.calcular_todas_probabilidades 2 2 1 "Hipergeométrica" =
      .ok [((0 : ℕ), (0 : ℚ)), (1, 1)] := by
    rw [ProbabilityEngine.todas_hiper_eq 2 2 1 (by norm_num) (by norm_num) (by norm_num)
      (by norm_num), htab2]
  have hmed1 : ProbabilityEngine.calcular_mediana [((0 : ℕ), (1 : ℚ)), (1, 0)] =
      .ok (0 : ℚ) := by
    norm_num [ProbabilityEngine.calcular_mediana, ProbabilityEngine.medianaLoop,
      ProbabilityEngine.dictGet, List.insertionSort, List.orderedInsert, List.find?]
  have hmed2 : ProbabilityEngine.calcular_mediana [((0 : ℕ), (0 : ℚ)), (1, 1)] =
      .ok (1 : ℚ) := by
    norm_num [ProbabilityEngine.calcular_mediana, ProbabilityEngine.medianaLoop,
      ProbabilityEngine.dictGet, List.insertionSort, List.orderedInsert, List.find?]
  have htb1 : tablaCompleta 1 (fun x => Calculos.binomial_pmf x 1 0) =
      [((0 : ℕ), (1 : ℚ)), (1, 0)] := by
    norm_num [tablaCompleta, List.range_succ, List.range_zero, Calculos.binomial_pmf,
      Calculos.combinatoria, Calculos.factorial]
  have htb2 : tablaCompleta 1 (fun x => Calculos.binomial_pmf x 1 1) =
      [((0 : ℕ), (0 : ℚ)), (1, 1)] := by
    norm_num [tablaCompleta, List.range_succ, List.range_zero, Calculos.binomial_pmf,
      Calculos.combinatoria, Calculos.factorial]
  have hb1 : ProbabilityEngine.calcular_mediana
      (tablaCompleta 1 (fun x => Calculos.binomial_pmf x 1 0)) = .ok (0 : ℚ) := by
    rw [htb1]
    exact hmed1
  have hb2 : ProbabilityEngine.calcular_mediana
      (tablaCompleta 1 (fun x => Calculos.binomial_pmf x 1 1)) = .ok (1 : ℚ) := by
    rw [htb2]
    exact hmed2
  exact ⟨⟨Nat.one_pos, by norm_num, by norm_num, by norm_num, ht1, ht2, hmed1, hmed2,
      C8_median_monotone.1 2 0 2 1 _ _ 0 1 Nat.one_pos (by norm_num) (by norm_num)
        (by norm_num) ht1 ht2 hmed1 hmed2⟩,
    ⟨Nat.one_pos, by norm_num, by norm_num, by norm_num, hb1, hb2,
      C8_median_monotone.2 1 0 1 0 1 Nat.one_pos (by norm_num) (by norm_num)
        (by norm_num) hb1 hb2⟩⟩
